import Mathlib

/-!
Shallow embedding of the SPL Token-2022 transfer-hook whitelist program
(`programs/transfer-hook/src/lib.rs`) and verification of its specification.

Identities (Solana public keys) are modelled as natural numbers compared by
exact equality, which is all the program does with them.  Account state is
passed explicitly; a failed instruction commits nothing (transaction
rollback), which the `committed` helper makes explicit.
-/

namespace TransferHookWhitelist

/-- A 32-byte Solana public key, modelled as a natural number: the program
only ever compares keys for equality. -/
abbrev Pubkey := Nat

/-- The program's error enum (`TransferError` in the source). -/
inductive TransferError where
  | IsNotCurrentlyTransferring
  | AccountNotFound
deriving DecidableEq, Repr

/-- Every way a handler of this program can fail: a typed Anchor error
(`err!`), a Rust `panic`, a propagated token-2022 unpack error when the
source account lacks the `TransferHookAccount` extension
(`get_extension_mut` returns a `ProgramError`, not a program-defined error),
or the Anchor `init` constraint failing because the PDA already exists. -/
inductive ProgErr where
  | anchor (e : TransferError)
  | panicked (msg : String)
  | extensionMissing
  | accountAlreadyInUse
deriving DecidableEq, Repr

/-- The `WhiteList` account: an authority key and the ordered list of
whitelisted keys (`white_list: Vec<Pubkey>`). -/
structure WhiteList where
  authority : Pubkey
  white_list : List Pubkey
deriving DecidableEq, Repr

/-- The state of the source token account that `check_is_transferring`
reads: `none` when the `TransferHookAccount` extension is absent,
`some b` when it is present with `transferring = b`. -/
structure SourceTokenAccount where
  transferHookExt : Option Bool
deriving DecidableEq, Repr

/-- `check_is_transferring` (lib.rs:366-387): unpack the source token
account, fetch its `TransferHookAccount` extension (propagating the unpack
error if absent), and require `transferring` to be true, else return
`IsNotCurrentlyTransferring`.  It only reads; no byte is written. -/
def check_is_transferring (src : SourceTokenAccount) : Except ProgErr Unit :=
  match src.transferHookExt with
  | none => .error .extensionMissing
  | some transferring =>
      if !transferring then .error (.anchor .IsNotCurrentlyTransferring)
      else .ok ()

/-- The on-chain state touched by the `transfer_hook` instruction: the
whitelist PDA, the source token account, and the destination token account
(of which the handler reads only the key). -/
structure TransferState where
  white_list : WhiteList
  source_token : SourceTokenAccount
  destination_token : Pubkey
deriving DecidableEq, Repr

/-- `transfer_hook` (lib.rs:274-289), with its full effect on state and
log: first `check_is_transferring`, then membership of the destination key
in the whitelist (`panic` when absent), then a success log line.  The
handler contains no assignment, so every branch returns the state it was
given. -/
def transfer_hook_run (s : TransferState) (_amount : Nat) :
    Except ProgErr Unit × TransferState × List String :=
  match check_is_transferring s.source_token with
  | .error e => (.error e, s, [])
  | .ok () =>
      if !(s.white_list.white_list.contains s.destination_token) then
        (.error (.panicked "Account not in white list!"), s, [])
      else
        (.ok (), s, ["Account in white list, all good!"])

/-- The result (accept/reject) of the `transfer_hook` instruction. -/
def transfer_hook (wl : WhiteList) (src : SourceTokenAccount)
    (destination : Pubkey) (amount : Nat) : Except ProgErr Unit :=
  (transfer_hook_run ⟨wl, src, destination⟩ amount).1

/-- `add_to_whitelist` (lib.rs:297-312): panic unless the signer is the
whitelist authority, then `push` the new key onto the vector. -/
def add_to_whitelist (wl : WhiteList) (signer new_account : Pubkey) :
    Except ProgErr WhiteList :=
  if wl.authority ≠ signer then
    .error (.panicked "Only the authority can add to the white list!")
  else
    .ok { wl with white_list := wl.white_list ++ [new_account] }

/-- `remove_from_whitelist` (lib.rs:320-355): panic unless the signer is
the authority; find the position of the first occurrence of the key
(`iter().position`), remove it (`Vec::remove`), or return
`AccountNotFound` when there is none. -/
def remove_from_whitelist (wl : WhiteList) (signer account_to_remove : Pubkey) :
    Except ProgErr WhiteList :=
  if wl.authority ≠ signer then
    .error (.panicked "Only the authority can remove from the white list!")
  else
    match wl.white_list.findIdx? (fun x => x == account_to_remove) with
    | some index => .ok { wl with white_list := wl.white_list.eraseIdx index }
    | none => .error (.anchor .AccountNotFound)

/-- A failed Solana instruction aborts its transaction: the committed
state after a handler call is the new state on success and the old state
on any error. -/
def committed (wl : WhiteList) (r : Except ProgErr WhiteList) : WhiteList :=
  match r with
  | .ok wl2 => wl2
  | .error _ => wl

/-- One entry of the `ExtraAccountMetaList`, as built by
`ExtraAccountMeta::new_with_seeds`: the PDA seed literals and the
signer/writable flags. -/
structure ExtraAccountMeta where
  seeds : List String
  is_signer : Bool
  is_writable : Bool
deriving DecidableEq, Repr

/-- `InitializeExtraAccountMetaList::extra_account_metas` (lib.rs:127-144):
exactly one extra account, the whitelist PDA derived from the literal seed
"white_list", not a signer, writable. -/
def extra_account_metas : List ExtraAccountMeta :=
  [{ seeds := ["white_list"], is_signer := false, is_writable := true }]

/-- The program's persistent state across instructions: the singleton
whitelist PDA (seed "white_list"; `none` until created) and the
extra-account-meta-list PDAs, one per mint (seeds "extra-account-metas" ++
mint key). -/
structure ProgramState where
  white_list : Option WhiteList
  extra_metas : List (Pubkey × List ExtraAccountMeta)
deriving DecidableEq, Repr

/-- `initialize_extra_account_meta_list` (lib.rs:243-262) together with its
account constraints (lib.rs:86-118): the meta-list PDA for the given mint
is `init` (fails if it already exists); the whitelist PDA is
`init_if_needed` (created zeroed when absent, reused when present); the
handler then unconditionally assigns `white_list.authority = payer` and
writes the one-element meta list. -/
def init_extra_account_meta_list (s : ProgramState) (payer mint : Pubkey) :
    Except ProgErr ProgramState :=
  if (s.extra_metas.lookup mint).isSome then
    .error .accountAlreadyInUse
  else
    let wl0 := s.white_list.getD { authority := 0, white_list := [] }
    .ok { white_list := some { wl0 with authority := payer },
          extra_metas := (mint, extra_account_metas) :: s.extra_metas }

/-! ## Helper: first-occurrence index -/

/-- Index of the first occurrence of `t` in a list (meaningful only when
`t` is a member).  Used to state what `iter().position` finds. -/
def firstIdx (t : Pubkey) : List Pubkey → Nat
  | [] => 0
  | x :: xs => if x = t then 0 else firstIdx t xs + 1

theorem findIdx?_eq_none_of_not_mem (t : Pubkey) (l : List Pubkey)
    (h : t ∉ l) : l.findIdx? (fun x => x == t) = none := by
  rw [List.findIdx?_eq_none_iff]
  intro x hx
  simp only [beq_eq_false_iff_ne, ne_eq]
  intro hxt
  exact h (hxt ▸ hx)

theorem findIdx?_eq_firstIdx (t : Pubkey) (l : List Pubkey) (h : t ∈ l) :
    l.findIdx? (fun x => x == t) = some (firstIdx t l) := by
  induction l with
  | nil => cases h
  | cons x xs ih =>
      rw [List.findIdx?_cons]
      by_cases hx : x = t
      · simp [hx, firstIdx]
      · have ht : t ∈ xs := by
          cases h with
          | head => exact absurd rfl hx
          | tail _ h2 => exact h2
        rw [List.findIdx?_succ, ih ht]
        simp [firstIdx, hx, beq_eq_false_iff_ne]

theorem firstIdx_decomp (t : Pubkey) (l : List Pubkey) (h : t ∈ l) :
    l.take (firstIdx t l) ++ t :: l.drop (firstIdx t l + 1) = l ∧
    t ∉ l.take (firstIdx t l) := by
  induction l with
  | nil => cases h
  | cons x xs ih =>
      by_cases hx : x = t
      · simp [firstIdx, hx]
      · have ht : t ∈ xs := by
          cases h with
          | head => exact absurd rfl hx
          | tail _ h2 => exact h2
        have ⟨ih1, ih2⟩ := ih ht
        refine ⟨?_, ?_⟩
        · simp only [firstIdx, hx, if_false, List.take_succ_cons,
            List.drop_succ_cons, List.cons_append, List.cons.injEq]
          exact ⟨trivial, ih1⟩
        · simp only [firstIdx, hx, if_false, List.take_succ_cons,
            List.mem_cons, not_or]
          exact ⟨fun he => hx he.symm, ih2⟩

/-- The `transfer_hook` handler writes no account: every branch of its run
returns the state it was given. -/
theorem transfer_hook_run_state_eq (s : TransferState) (amount : Nat) :
    (transfer_hook_run s amount).2.1 = s := by
  unfold transfer_hook_run
  cases check_is_transferring s.source_token with
  | error e => rfl
  | ok v =>
      cases v
      dsimp only
      split <;> rfl

/-- C1: for every destination d, whitelist state and in-flight marker
value, the transfer hook succeeds iff d is in the whitelist entries and
the source's transferring marker is present and true; each condition being
false independently forces failure. -/
theorem validate_transfer_iff (wl : WhiteList) (src : SourceTokenAccount)
    (d : Pubkey) (amount : Nat) :
    (transfer_hook wl src d amount = .ok () ↔
      d ∈ wl.white_list ∧ src.transferHookExt = some true) ∧
    (d ∉ wl.white_list → transfer_hook wl src d amount ≠ .ok ()) ∧
    (src.transferHookExt ≠ some true → transfer_hook wl src d amount ≠ .ok ()) := by
  have key : transfer_hook wl src d amount = .ok () ↔
      d ∈ wl.white_list ∧ src.transferHookExt = some true := by
    unfold transfer_hook transfer_hook_run check_is_transferring
    cases hext : src.transferHookExt with
    | none => simp
    | some b =>
        cases b with
        | false => simp
        | true =>
            by_cases hc : d ∈ wl.white_list <;> simp [hc]
  exact ⟨key, fun hd hok => hd ((key.mp hok).1),
    fun hs hok => hs ((key.mp hok).2)⟩

/-- C1 witness: with marker set and destination 5 whitelisted, the hook
accepts. -/
theorem validate_transfer_iff_witness :
    transfer_hook ⟨1, [5]⟩ ⟨some true⟩ 5 0 = .ok () :=
  (validate_transfer_iff ⟨1, [5]⟩ ⟨some true⟩ 5 0).1.mpr ⟨by decide, rfl⟩

/-- C2 counterexample: when the transfer-hook extension is absent the call
fails, but with the propagated extension-unpack error, not with the
program's IsNotCurrentlyTransferring error — even with the destination
whitelisted. -/
theorem validate_transfer_missing_ext_error :
    transfer_hook ⟨1, [5]⟩ ⟨none⟩ 5 0 = .error .extensionMissing ∧
    (Except.error ProgErr.extensionMissing : Except ProgErr Unit) ≠
      Except.error (.anchor .IsNotCurrentlyTransferring) :=
  ⟨rfl, fun h => absurd (Except.error.inj h) (by decide)⟩

/-- C2 (amended): with the extension present and the marker false the call
fails with IsNotCurrentlyTransferring regardless of membership; with the
extension absent the call still fails regardless of membership, but with
the propagated extension-unpack error. -/
theorem validate_transfer_guard (wl : WhiteList) (src : SourceTokenAccount)
    (d : Pubkey) (amount : Nat) :
    (src.transferHookExt = some false →
      transfer_hook wl src d amount = .error (.anchor .IsNotCurrentlyTransferring)) ∧
    (src.transferHookExt = none →
      transfer_hook wl src d amount = .error .extensionMissing) := by
  constructor <;> intro h <;>
    simp [transfer_hook, transfer_hook_run, check_is_transferring, h]

/-- C2 witness: the amended guard at concrete inputs. -/
theorem validate_transfer_guard_witness :
    transfer_hook ⟨1, [5]⟩ ⟨some false⟩ 5 0 =
      .error (.anchor .IsNotCurrentlyTransferring) ∧
    transfer_hook ⟨1, [5]⟩ ⟨none⟩ 6 0 = .error .extensionMissing :=
  ⟨(validate_transfer_guard ⟨1, [5]⟩ ⟨some false⟩ 5 0).1 rfl,
   (validate_transfer_guard ⟨1, [5]⟩ ⟨none⟩ 6 0).2 rfl⟩

/-- C7: the transfer hook is a pure gate: on every path (accept, panic,
guard error) the whole touched state — whitelist record, source token
account, destination — is returned unchanged, and its only other output
is the diagnostic log, one line on accept and none otherwise. -/
theorem validate_transfer_pure (s : TransferState) (amount : Nat) :
    (transfer_hook_run s amount).2.1 = s ∧
    (transfer_hook_run s amount).2.2 =
      (match (transfer_hook_run s amount).1 with
       | .ok _ => ["Account in white list, all good!"]
       | .error _ => ([] : List String)) := by
  refine ⟨transfer_hook_run_state_eq s amount, ?_⟩
  unfold transfer_hook_run
  cases check_is_transferring s.source_token with
  | error e => rfl
  | ok v =>
      cases v
      dsimp only
      split <;> rfl

/-- C8: the hook's outcome does not depend on the amount argument. -/
theorem validate_transfer_amount_independent (wl : WhiteList)
    (src : SourceTokenAccount) (d : Pubkey) (a1 a2 : Nat) :
    transfer_hook wl src d a1 = transfer_hook wl src d a2 := rfl

/-- C3: re-invoking the bootstrap routine on an existing allow-list (with a
fresh mint, so the Anchor init constraint on the per-mint meta-list PDA
passes) resets the stored authority 1 to the new caller 2 while keeping
the entries — contradicting the specified idempotence.  The unconditional
assignment at lib.rs:248 combined with init_if_needed at lib.rs:116 lets
any payer take over the whitelist. -/
theorem reinit_resets_authority :
    init_extra_account_meta_list
      { white_list := some { authority := 1, white_list := [5] },
        extra_metas := [(10, extra_account_metas)] } 2 11 =
      .ok { white_list := some { authority := 2, white_list := [5] },
            extra_metas := [(11, extra_account_metas), (10, extra_account_metas)] } ∧
    (2 : Pubkey) ≠ 1 :=
  ⟨rfl, by decide⟩

/-- C4: removal by the authority deletes exactly the first occurrence of
the target (the prefix before it is target-free and the list decomposes
around it), keeps the remaining elements in order as take-prefix plus
drop-suffix, and shrinks the length by one; removing an absent target
returns AccountNotFound and commits no change. -/
theorem remove_from_whitelist_spec (a signer t : Pubkey) (l : List Pubkey)
    (hs : signer = a) :
    (t ∈ l →
      remove_from_whitelist ⟨a, l⟩ signer t =
        .ok ⟨a, l.take (firstIdx t l) ++ l.drop (firstIdx t l + 1)⟩ ∧
      l.take (firstIdx t l) ++ t :: l.drop (firstIdx t l + 1) = l ∧
      t ∉ l.take (firstIdx t l) ∧
      (l.take (firstIdx t l) ++ l.drop (firstIdx t l + 1)).length + 1 = l.length) ∧
    (t ∉ l →
      remove_from_whitelist ⟨a, l⟩ signer t = .error (.anchor .AccountNotFound) ∧
      committed ⟨a, l⟩ (remove_from_whitelist ⟨a, l⟩ signer t) = ⟨a, l⟩) := by
  subst hs
  constructor
  · intro h
    have hfind := findIdx?_eq_firstIdx t l h
    have ⟨hdec, hpre⟩ := firstIdx_decomp t l h
    have herase : l.eraseIdx (firstIdx t l) =
        l.take (firstIdx t l) ++ l.drop (firstIdx t l + 1) :=
      List.eraseIdx_eq_take_drop_succ l _
    refine ⟨?_, hdec, hpre, ?_⟩
    · unfold remove_from_whitelist
      simp [hfind, herase]
    · have h2 := congrArg List.length hdec
      simp [List.length_append] at h2 ⊢
      omega
  · intro h
    have hfind := findIdx?_eq_none_of_not_mem t l h
    unfold remove_from_whitelist committed
    simp [hfind]

/-- C4 witness: the spec at a present target (first of one occurrence) and
at an absent target. -/
theorem remove_from_whitelist_spec_witness :
    ((5 : Pubkey) ∈ [4, 5, 6] ∧
      remove_from_whitelist ⟨1, [4, 5, 6]⟩ 1 5 = .ok ⟨1, [4, 6]⟩) ∧
    ((7 : Pubkey) ∉ [4, 5, 6] ∧
      remove_from_whitelist ⟨1, [4, 5, 6]⟩ 1 7 =
        .error (.anchor .AccountNotFound)) := by
  refine ⟨⟨by decide, ?_⟩, ⟨by decide, ?_⟩⟩
  · exact ((remove_from_whitelist_spec 1 1 5 [4, 5, 6] rfl).1 (by decide)).1
  · exact ((remove_from_whitelist_spec 1 1 7 [4, 5, 6] rfl).2 (by decide)).1

/-- C5: addition by the authority appends the new key at the tail: the
result is the old list plus one, the old list is preserved as a prefix,
and the occurrence count of the added key grows by one — in particular a
duplicate add succeeds and yields a second occurrence. -/
theorem add_to_whitelist_spec (wl : WhiteList) (signer new_account : Pubkey)
    (hs : signer = wl.authority) :
    add_to_whitelist wl signer new_account =
      .ok { wl with white_list := wl.white_list ++ [new_account] } ∧
    (wl.white_list ++ [new_account]).length = wl.white_list.length + 1 ∧
    (wl.white_list ++ [new_account]).take wl.white_list.length = wl.white_list ∧
    (wl.white_list ++ [new_account]).count new_account =
      wl.white_list.count new_account + 1 := by
  refine ⟨?_, by simp, List.take_left wl.white_list [new_account], ?_⟩
  · unfold add_to_whitelist
    simp [hs]
  · simp [List.count_append, List.count_singleton]

/-- C5 witness: adding the already-present key 5 succeeds and produces two
occurrences. -/
theorem add_to_whitelist_spec_witness :
    add_to_whitelist ⟨1, [5]⟩ 1 5 = .ok ⟨1, [5, 5]⟩ ∧
    ([5, 5] : List Pubkey).count 5 = 2 :=
  ⟨(add_to_whitelist_spec ⟨1, [5]⟩ 1 5 rfl).1, by decide⟩

/-- C6: a signer different from the stored authority makes both mutation
handlers abort with their authorization panics, and the committed state —
in particular the entries list — is unchanged. -/
theorem mutations_require_authority (wl : WhiteList) (signer x y : Pubkey)
    (h : signer ≠ wl.authority) :
    add_to_whitelist wl signer x =
      .error (.panicked "Only the authority can add to the white list!") ∧
    remove_from_whitelist wl signer y =
      .error (.panicked "Only the authority can remove from the white list!") ∧
    committed wl (add_to_whitelist wl signer x) = wl ∧
    committed wl (remove_from_whitelist wl signer y) = wl := by
  have h2 : wl.authority ≠ signer := fun he => h he.symm
  refine ⟨?_, ?_, ?_, ?_⟩ <;>
    simp [add_to_whitelist, remove_from_whitelist, committed, h2]

/-- C6 witness: signer 2 against authority 1. -/
theorem mutations_require_authority_witness :
    add_to_whitelist ⟨1, [5]⟩ 2 6 =
      .error (.panicked "Only the authority can add to the white list!") ∧
    committed ⟨1, [5]⟩ (remove_from_whitelist ⟨1, [5]⟩ 2 5) = ⟨1, [5]⟩ :=
  ⟨(mutations_require_authority ⟨1, [5]⟩ 2 6 5 (by decide)).1,
   (mutations_require_authority ⟨1, [5]⟩ 2 6 5 (by decide)).2.2.2⟩

/-- C9: every successful bootstrap call stores, for its mint, exactly the
one-descriptor meta list whose single entry is derived from the literal
seed "white_list", not a signer and writable. -/
theorem init_populates_one_meta (s : ProgramState) (payer mint : Pubkey)
    (h : s.extra_metas.lookup mint = none) :
    init_extra_account_meta_list s payer mint =
      .ok ⟨some ⟨payer, (s.white_list.getD ⟨0, []⟩).white_list⟩,
           (mint, extra_account_metas) :: s.extra_metas⟩ ∧
    extra_account_metas.length = 1 ∧
    extra_account_metas =
      [{ seeds := ["white_list"], is_signer := false, is_writable := true }] := by
  refine ⟨?_, rfl, rfl⟩
  unfold init_extra_account_meta_list
  simp [h]

/-- C9 witness: bootstrap from the empty state. -/
theorem init_populates_one_meta_witness :
    init_extra_account_meta_list ⟨none, []⟩ 1 10 =
      .ok ⟨some ⟨1, []⟩, [(10, extra_account_metas)]⟩ ∧
    extra_account_metas.length = 1 :=
  ⟨(init_populates_one_meta ⟨none, []⟩ 1 10 rfl).1,
   (init_populates_one_meta ⟨none, []⟩ 1 10 rfl).2.1⟩

/-- C10: neither mutation handler nor the transfer hook ever writes the
authority field: on success and on failure the committed authority equals
the prior one, and the hook returns its state unchanged. -/
theorem authority_only_written_by_init (wl : WhiteList) (signer x y : Pubkey)
    (s : TransferState) (amount : Nat) :
    (committed wl (add_to_whitelist wl signer x)).authority = wl.authority ∧
    (committed wl (remove_from_whitelist wl signer y)).authority = wl.authority ∧
    (transfer_hook_run s amount).2.1.white_list.authority =
      s.white_list.authority := by
  refine ⟨?_, ?_, by rw [transfer_hook_run_state_eq]⟩
  · unfold add_to_whitelist committed
    by_cases h : wl.authority ≠ signer <;> simp [h]
  · unfold remove_from_whitelist committed
    by_cases h : wl.authority ≠ signer
    · simp [h]
    · cases hf : wl.white_list.findIdx? (fun z => z == y) <;> simp [h, hf]

end TransferHookWhitelist
